import Mathlib

/-!
Shallow embedding of the Baystation12/monitor control service (src/main.go).

The service exposes six handlers (Start, Stop, Update, RestoreSave, Commit,
IsRunning) that each build a `{success, message}` response envelope.  The
external collaborators — the process runner (`os/exec`), the container status
provider (docker `ContainerInspect`) and the repository metadata provider
(go-git) — are modelled as oracle functions passed to each operation; the
handler bodies themselves are translated line by line from `main.go`.
-/

/-- Configuration (`Config` in main.go): script paths, repository path and
container identifier, loaded once at startup and immutable afterwards. -/
structure Config where
  password : String
  startScript : String
  stopScript : String
  updateScript : String
  restoreSaveScript : String
  gitDir : String
  pidFile : String
  container : String
deriving DecidableEq

/-- Commit metadata returned by the Commit handler: the `map[string]string`
with keys "message", "date", "sha" built in `Monitor.Commit`. -/
structure CommitInfo where
  message : String
  date : String
  sha : String
deriving DecidableEq

/-- The dynamically typed `message interface\x7b\x7d` field of the Go `Response`:
every handler stores either a human-readable string, a boolean
(IsRunning), or the structured commit record (Commit). -/
inductive Message where
  | str : String → Message
  | bool : Bool → Message
  | commit : CommitInfo → Message
deriving DecidableEq

/-- The uniform response envelope (`Response` in main.go):
`\x7b"success": bool, "message": ...\x7d`. -/
structure Response where
  success : Bool
  message : Message
deriving DecidableEq

/-- Result of `cmd.CombinedOutput()`: the captured combined stdout/stderr
text together with the runner's error, `none` when the process exited
without error. -/
structure RunOutput where
  output : String
  err : Option String
deriving DecidableEq

/-- Docker `ContainerState`: the `Running` flag read by IsRunning. -/
structure ContainerState where
  Running : Bool
deriving DecidableEq

/-- Docker `ContainerJSON` returned by `ContainerInspect`.  In the Go client
the `State` field is a pointer (`*ContainerState`), so a successful
inspection could in principle carry no state record; `none` models that
nil pointer. -/
structure ContainerJSON where
  State : Option ContainerState
deriving DecidableEq

/-- A go-git hash (`plumbing.Hash`, a 20-byte array), modelled as its list
of byte values. -/
structure GitHash where
  bytes : List Nat
deriving DecidableEq

/-- A go-git commit time, carried only for the purpose of the fixed
rendering `When.Format ("Mon Jan 02 15:04:05 2006 -0700")` that
`Monitor.Commit` applies to it; `monitorFormat` is that rendered string
(the `time` library's formatting itself is outside the embedded core). -/
structure GoTime where
  monitorFormat : String
deriving DecidableEq

/-- A go-git signature (`object.Signature`): only the `When` timestamp is
read by the core. -/
structure Signature where
  When : GoTime
deriving DecidableEq

/-- A go-git commit object (`object.Commit`): the fields read by
`Monitor.Commit`. -/
structure GitCommit where
  Message : String
  Committer : Signature
  Hash : GitHash
deriving DecidableEq

/-- The repository metadata provider (go-git) as consumed by
`Monitor.Commit`: `plainOpen` opens the repository at a path (the handle
itself carries no data the core reads), `head` resolves the HEAD
reference to its hash, `commitObject` loads the commit for a hash.  Each
stage reports its error as descriptive text. -/
structure GitWorld where
  plainOpen : String → Except String Unit
  head : Except String GitHash
  commitObject : GitHash → Except String GitCommit

/-- Lowercase hex digit for a value below 16 (`encoding/hex` alphabet). -/
def hexDigit (n : Nat) : Char :=
  if n < 10 then Char.ofNat (48 + n) else Char.ofNat (87 + n)

/-- The two lowercase hex digits of one byte. -/
def hexByte (b : Nat) : List Char :=
  [hexDigit (b / 16 % 16), hexDigit (b % 16)]

/-- `plumbing.Hash.String()`: `hex.EncodeToString(h[:])`, the bytes rendered
as lowercase hexadecimal, two digits per byte. -/
def GitHash.string (h : GitHash) : String :=
  ⟨(h.bytes.map hexByte).flatten⟩

/-- Go `strings.ToLower` restricted to the character-wise case mapping
(ASCII range; the handler only lowercases a request identifier). -/
def goToLower (s : String) : String :=
  ⟨s.data.map Char.toLower⟩

/-- Go `strings.TrimSpace`: remove leading and trailing whitespace. -/
def trimSpace (s : String) : String :=
  ⟨((s.data.dropWhile Char.isWhitespace).reverse.dropWhile Char.isWhitespace).reverse⟩

/-- `strings.SplitN(s, "\n", 2)[0]`: the text before the first line break,
or all of `s` when it has none. -/
def firstLine (s : String) : String :=
  ⟨s.data.takeWhile (fun c => c ≠ '\n')⟩

/-- `Monitor.Start`: run the configured start script (the runner oracle
`run` maps a script path to `none` on clean exit or `some e` with the
error text) and report the fixed message or the failure. -/
def Monitor.Start (conf : Config) (run : String → Option String) : Response :=
  match run conf.startScript with
  | none => ⟨true, .str "Server has been started"⟩
  | some e => ⟨false, .str ("Server failed to start (" ++ e ++ ")")⟩

/-- `Monitor.Stop`: same shape as Start, on the stop script. -/
def Monitor.Stop (conf : Config) (run : String → Option String) : Response :=
  match run conf.stopScript with
  | none => ⟨true, .str "Server has been stopped"⟩
  | some e => ⟨false, .str ("Server failed to stop (" ++ e ++ ")")⟩

/-- `Monitor.Update`: same shape as Start, on the update script. -/
def Monitor.Update (conf : Config) (run : String → Option String) : Response :=
  match run conf.updateScript with
  | none => ⟨true, .str "Server has been updated"⟩
  | some e => ⟨false, .str ("Server failed to update (" ++ e ++ ")")⟩

/-- `Monitor.RestoreSave`: lowercase the ckey, reject the request when
either field is empty, otherwise run the restore script with the two
positional arguments and capture its combined output (`co` maps the
script path and argument list to the captured `RunOutput`). -/
def Monitor.RestoreSave (conf : Config) (ckey date : String)
    (co : String → List String → RunOutput) : Response :=
  let ckeyL := goToLower ckey
  if ckeyL = "" ∨ date = "" then
    ⟨false, .str "Invalid request"⟩
  else
    let r := co conf.restoreSaveScript [ckeyL, date]
    match r.err with
    | none => ⟨true, .str r.output⟩
    | some e => ⟨false, .str ("Script failed to run: " ++ e ++ "\n\n" ++ r.output)⟩

/-- The argument list RestoreSave hands to the process runner: `none` when
validation rejects the request before any invocation, otherwise the two
positional arguments exactly as passed. -/
def Monitor.RestoreSaveArgs (ckey date : String) : Option (List String) :=
  let ckeyL := goToLower ckey
  if ckeyL = "" ∨ date = "" then none
  else some [ckeyL, date]

/-- `Monitor.Commit`: open the repo at `gitDir`, resolve HEAD, load the
commit, and report its summary line, formatted committer time and full
hash; each failing stage short-circuits with its own message. -/
def Monitor.Commit (conf : Config) (g : GitWorld) : Response :=
  match g.plainOpen conf.gitDir with
  | .error e => ⟨false, .str ("Failed to open git repo (" ++ e ++ ")")⟩
  | .ok _ =>
    match g.head with
    | .error e => ⟨false, .str ("Failed to get HEAD ref (" ++ e ++ ")")⟩
    | .ok h =>
      match g.commitObject h with
      | .error e => ⟨false, .str ("Failed to get HEAD commit (" ++ e ++ ")")⟩
      | .ok c =>
        ⟨true, .commit ⟨firstLine (trimSpace c.Message),
                        c.Committer.When.monitorFormat,
                        c.Hash.string⟩⟩

/-- `Monitor.IsRunning`: inspect the configured container (`ins` maps the
container identifier to the inspection result).  An inspection error is
folded into `running = false`; on a non-error result the code reads
`info.State.Running` through the `State` pointer with no nil check, so a
successful inspection carrying no state record has no defined result —
modelled as `none` (in Go this line would dereference a nil pointer). -/
def Monitor.IsRunning (conf : Config) (ins : String → Except String ContainerJSON) :
    Option Response :=
  match ins conf.container with
  | .error _ => some ⟨true, .bool false⟩
  | .ok info =>
    match info.State with
    | none => none
    | some st => some ⟨true, .bool st.Running⟩

/-- The invariant of claim C7: a failure envelope carries a string message. -/
def msgStrOnFailure (r : Response) : Prop :=
  r.success = false → ∃ s, r.message = Message.str s

/-- A concrete configuration used by the evaluation witnesses. -/
def conf₀ : Config :=
  ⟨"pw", "start.sh", "stop.sh", "update.sh", "restore.sh", "/srv/repo",
   "monitor.pid", "game"⟩

lemma goToLower_eq_empty_iff (s : String) : goToLower s = "" ↔ s = "" := by
  cases s with
  | mk data =>
    simp only [goToLower]
    constructor
    · intro h
      have hd : data.map Char.toLower = [] := congrArg String.data h
      simp only [List.map_eq_nil_iff] at hd
      simp [hd]
    · intro h
      have hd : data = [] := congrArg String.data h
      simp [hd]

lemma toLower_of_isWhitespace {c : Char} (h : c.isWhitespace = true) :
    c.toLower = c := by
  simp only [Char.isWhitespace, Bool.or_eq_true, decide_eq_true_eq] at h
  rcases h with ((h | h) | h) | h <;> subst h <;> decide

lemma goToLower_of_whitespace (s : String)
    (h : ∀ c ∈ s.data, c.isWhitespace = true) : goToLower s = s := by
  cases s with
  | mk data =>
    show String.mk (data.map Char.toLower) = String.mk data
    congr 1
    calc data.map Char.toLower
        = data.map id := List.map_congr_left fun c hc => toLower_of_isWhitespace (h c hc)
      _ = data := List.map_id data

lemma hexDigit_isLowerHex : ∀ n < 16,
    ('0' ≤ hexDigit n ∧ hexDigit n ≤ '9') ∨
    ('a' ≤ hexDigit n ∧ hexDigit n ≤ 'f') := by decide

lemma hexByte_isLowerHex (b : Nat) : ∀ c ∈ hexByte b,
    ('0' ≤ c ∧ c ≤ '9') ∨ ('a' ≤ c ∧ c ≤ 'f') := by
  intro c hc
  have h1 : b / 16 % 16 < 16 := Nat.mod_lt _ (by omega)
  have h2 : b % 16 < 16 := Nat.mod_lt _ (by omega)
  simp only [hexByte, List.mem_cons, List.mem_singleton, List.not_mem_nil,
    or_false] at hc
  rcases hc with h | h <;> subst h
  · exact hexDigit_isLowerHex _ h1
  · exact hexDigit_isLowerHex _ h2

lemma GitHash.string_length (h : GitHash) :
    h.string.length = 2 * h.bytes.length := by
  cases h with
  | mk bytes =>
    show ((bytes.map hexByte).flatten).length = 2 * bytes.length
    induction bytes with
    | nil => rfl
    | cons b bs ih =>
      have hb : (hexByte b).length = 2 := rfl
      simp only [List.map_cons, List.flatten_cons, List.length_append, ih, hb,
        List.length_cons]
      omega

lemma GitHash.string_isLowerHex (h : GitHash) : ∀ c ∈ h.string.data,
    ('0' ≤ c ∧ c ≤ '9') ∨ ('a' ≤ c ∧ c ≤ 'f') := by
  cases h with
  | mk bytes =>
    intro c hc
    change c ∈ (bytes.map hexByte).flatten at hc
    rw [List.mem_flatten] at hc
    obtain ⟨l, hl, hcl⟩ := hc
    rw [List.mem_map] at hl
    obtain ⟨b, _, rfl⟩ := hl
    exact hexByte_isLowerHex b c hcl

/-- Claim C1: for each of Start, Stop and Update, a runner reporting a clean
exit of the configured script yields `success = true` with the fixed message
for that action, and a runner reporting any failure yields `success = false`
with the message "Server failed to start|stop|update (<error detail>)"
carrying the runner's reported failure reason. -/
theorem start_stop_update_envelopes (conf : Config) (run : String → Option String) :
    (run conf.startScript = none →
      Monitor.Start conf run = ⟨true, .str "Server has been started"⟩) ∧
    (∀ e, run conf.startScript = some e →
      Monitor.Start conf run = ⟨false, .str ("Server failed to start (" ++ e ++ ")")⟩) ∧
    (run conf.stopScript = none →
      Monitor.Stop conf run = ⟨true, .str "Server has been stopped"⟩) ∧
    (∀ e, run conf.stopScript = some e →
      Monitor.Stop conf run = ⟨false, .str ("Server failed to stop (" ++ e ++ ")")⟩) ∧
    (run conf.updateScript = none →
      Monitor.Update conf run = ⟨true, .str "Server has been updated"⟩) ∧
    (∀ e, run conf.updateScript = some e →
      Monitor.Update conf run = ⟨false, .str ("Server failed to update (" ++ e ++ ")")⟩) := by
  refine ⟨fun h => ?_, fun e h => ?_, fun h => ?_, fun e h => ?_, fun h => ?_, fun e h => ?_⟩ <;>
    simp [Monitor.Start, Monitor.Stop, Monitor.Update, h]

/-- Evaluation witness for `start_stop_update_envelopes` at a concrete
configuration and concrete runner outcomes. -/
theorem start_stop_update_envelopes_witness :
    Monitor.Start conf₀ (fun _ => none) = ⟨true, .str "Server has been started"⟩ ∧
    Monitor.Start conf₀ (fun _ => some "exit status 1") =
      ⟨false, .str "Server failed to start (exit status 1)"⟩ ∧
    Monitor.Stop conf₀ (fun _ => none) = ⟨true, .str "Server has been stopped"⟩ ∧
    Monitor.Stop conf₀ (fun _ => some "exit status 1") =
      ⟨false, .str "Server failed to stop (exit status 1)"⟩ ∧
    Monitor.Update conf₀ (fun _ => none) = ⟨true, .str "Server has been updated"⟩ ∧
    Monitor.Update conf₀ (fun _ => some "exit status 1") =
      ⟨false, .str "Server failed to update (exit status 1)"⟩ :=
  ⟨(start_stop_update_envelopes conf₀ (fun _ => none)).1 rfl,
   (start_stop_update_envelopes conf₀ (fun _ => some "exit status 1")).2.1 _ rfl,
   (start_stop_update_envelopes conf₀ (fun _ => none)).2.2.1 rfl,
   (start_stop_update_envelopes conf₀ (fun _ => some "exit status 1")).2.2.2.1 _ rfl,
   (start_stop_update_envelopes conf₀ (fun _ => none)).2.2.2.2.1 rfl,
   (start_stop_update_envelopes conf₀ (fun _ => some "exit status 1")).2.2.2.2.2 _ rfl⟩

/-- Claim C2: IsRunning always returns an envelope with `success = true`;
its boolean message is `true` exactly when the inspection returned without
error and the reported state is running, and `false` in every other case,
including an inspection error (stated under the provider contract that a
non-error inspection carries a state record, cf. claim C10). -/
theorem isRunning_envelope (conf : Config) (ins : String → Except String ContainerJSON)
    (hs : ∀ info, ins conf.container = Except.ok info → info.State.isSome = true) :
    ∃ b : Bool, Monitor.IsRunning conf ins = some ⟨true, .bool b⟩ ∧
      (b = true ↔ ∃ info st, ins conf.container = Except.ok info ∧
        info.State = some st ∧ st.Running = true) := by
  unfold Monitor.IsRunning
  cases h : ins conf.container with
  | error e =>
    refine ⟨false, rfl, ?_⟩
    simp
  | ok info =>
    obtain ⟨stOpt⟩ := info
    have hsome := hs ⟨stOpt⟩ h
    cases stOpt with
    | none => simp at hsome
    | some st =>
      refine ⟨st.Running, rfl, ?_⟩
      constructor
      · intro hb
        exact ⟨⟨some st⟩, st, rfl, rfl, hb⟩
      · rintro ⟨info2, st2, h2, hst2, hr2⟩
        cases Except.ok.inj h2
        cases Option.some.inj hst2
        exact hr2

/-- Evaluation witness for `isRunning_envelope` at a concrete inspection
result reporting a running container. -/
theorem isRunning_envelope_witness :
    ∃ b : Bool,
      Monitor.IsRunning conf₀ (fun _ => Except.ok ⟨some ⟨true⟩⟩) = some ⟨true, .bool b⟩ ∧
      (b = true ↔ ∃ info st,
        (Except.ok ⟨some ⟨true⟩⟩ : Except String ContainerJSON) = Except.ok info ∧
        info.State = some st ∧ st.Running = true) := by
  exact isRunning_envelope conf₀ (fun _ => Except.ok ⟨some ⟨true⟩⟩)
    (fun info h => by cases Except.ok.inj h; rfl)

/-- Claim C10: the running flag is read through the inspection result's
State record with no presence check.  The result is undefined (a nil
dereference, modelled as `none`) exactly when the inspection succeeds but
carries no State record; in particular the error branch never reaches the
read and yields the defined `\x7bsuccess = true, message = false\x7d` envelope. -/
theorem isRunning_state_deref (conf : Config) (ins : String → Except String ContainerJSON) :
    (Monitor.IsRunning conf ins = none ↔
      ∃ info, ins conf.container = Except.ok info ∧ info.State = none) ∧
    (∀ e, ins conf.container = Except.error e →
      Monitor.IsRunning conf ins = some ⟨true, .bool false⟩) := by
  unfold Monitor.IsRunning
  cases h : ins conf.container with
  | error e =>
    refine ⟨?_, fun e2 _ => rfl⟩
    simp
  | ok info =>
    obtain ⟨stOpt⟩ := info
    refine ⟨?_, fun e2 h2 => Except.noConfusion h2⟩
    cases stOpt with
    | none =>
      constructor
      · intro _
        exact ⟨⟨none⟩, rfl, rfl⟩
      · intro _
        rfl
    | some st =>
      constructor
      · intro hc
        exact Option.noConfusion hc
      · rintro ⟨info2, h2, hst2⟩
        cases Except.ok.inj h2
        exact Option.noConfusion hst2

/-- Evaluation witness for `isRunning_state_deref`: an inspection error is
folded into the defined `false` envelope. -/
theorem isRunning_state_deref_witness :
    Monitor.IsRunning conf₀ (fun _ => Except.error "no such container") =
      some ⟨true, .bool false⟩ :=
  (isRunning_state_deref conf₀ (fun _ => Except.error "no such container")).2
    "no such container" rfl

/-- Claim C4: with both fields nonempty, RestoreSave passes the lowercased
ckey and the unchanged date as the two positional arguments; a clean runner
exit yields `success = true` with the captured combined output verbatim,
and a runner failure yields `success = false` with the message
"Script failed to run: <error>\n\n<captured output>", error first. -/
theorem restoreSave_envelopes (conf : Config) (ckey date : String)
    (co : String → List String → RunOutput)
    (hc : ckey ≠ "") (hd : date ≠ "") :
    Monitor.RestoreSaveArgs ckey date = some [goToLower ckey, date] ∧
    ((co conf.restoreSaveScript [goToLower ckey, date]).err = none →
      Monitor.RestoreSave conf ckey date co =
        ⟨true, .str (co conf.restoreSaveScript [goToLower ckey, date]).output⟩) ∧
    (∀ e, (co conf.restoreSaveScript [goToLower ckey, date]).err = some e →
      Monitor.RestoreSave conf ckey date co =
        ⟨false, .str ("Script failed to run: " ++ e ++ "\n\n" ++
          (co conf.restoreSaveScript [goToLower ckey, date]).output)⟩) := by
  have hcl : ¬ (goToLower ckey = "" ∨ date = "") := by
    rintro (h | h)
    · exact hc ((goToLower_eq_empty_iff ckey).mp h)
    · exact hd h
  refine ⟨?_, ?_, ?_⟩
  · simp only [Monitor.RestoreSaveArgs, if_neg hcl]
  · intro h
    simp only [Monitor.RestoreSave, if_neg hcl, h]
  · intro e h
    simp only [Monitor.RestoreSave, if_neg hcl, h]

/-- Evaluation witness for `restoreSave_envelopes`: ckey "Alice" is passed
as "alice", a succeeding runner's output is surfaced verbatim, a failing
runner's error precedes the captured output. -/
theorem restoreSave_envelopes_witness :
    Monitor.RestoreSaveArgs "Alice" "2024-01-31" = some ["alice", "2024-01-31"] ∧
    Monitor.RestoreSave conf₀ "Alice" "2024-01-31" (fun _ _ => ⟨"save restored\n", none⟩) =
      ⟨true, .str "save restored\n"⟩ ∧
    Monitor.RestoreSave conf₀ "Alice" "2024-01-31"
        (fun _ _ => ⟨"no such save\n", some "exit status 2"⟩) =
      ⟨false, .str "Script failed to run: exit status 2\n\nno such save\n"⟩ := by
  refine ⟨?_, ?_, ?_⟩
  · exact (restoreSave_envelopes conf₀ "Alice" "2024-01-31"
      (fun _ _ => ⟨"save restored\n", none⟩) (by decide) (by decide)).1
  · exact (restoreSave_envelopes conf₀ "Alice" "2024-01-31"
      (fun _ _ => ⟨"save restored\n", none⟩) (by decide) (by decide)).2.1 rfl
  · exact (restoreSave_envelopes conf₀ "Alice" "2024-01-31"
      (fun _ _ => ⟨"no such save\n", some "exit status 2"⟩) (by decide) (by decide)).2.2
      "exit status 2" rfl

/-- Claim C5: when the ckey field or the date field is empty, RestoreSave
answers `\x7bsuccess = false, message = "Invalid request"\x7d` and the runner is
never invoked: the result is the same for every runner, and the passed
argument list is `none`. -/
theorem restoreSave_invalid (conf : Config) (ckey date : String)
    (co co2 : String → List String → RunOutput)
    (h : ckey = "" ∨ date = "") :
    Monitor.RestoreSave conf ckey date co = ⟨false, .str "Invalid request"⟩ ∧
    Monitor.RestoreSave conf ckey date co = Monitor.RestoreSave conf ckey date co2 ∧
    Monitor.RestoreSaveArgs ckey date = none := by
  have hcl : goToLower ckey = "" ∨ date = "" := by
    rcases h with h | h
    · exact Or.inl ((goToLower_eq_empty_iff ckey).mpr h)
    · exact Or.inr h
  refine ⟨?_, ?_, ?_⟩ <;>
    simp only [Monitor.RestoreSave, Monitor.RestoreSaveArgs, if_pos hcl]

/-- Evaluation witness for `restoreSave_invalid` at an empty ckey. -/
theorem restoreSave_invalid_witness :
    Monitor.RestoreSave conf₀ "" "2024-01-31" (fun _ _ => ⟨"save restored\n", none⟩) =
      ⟨false, .str "Invalid request"⟩ ∧
    Monitor.RestoreSave conf₀ "" "2024-01-31" (fun _ _ => ⟨"save restored\n", none⟩) =
      Monitor.RestoreSave conf₀ "" "2024-01-31" (fun _ _ => ⟨"other", some "boom"⟩) ∧
    Monitor.RestoreSaveArgs "" "2024-01-31" = none :=
  restoreSave_invalid conf₀ "" "2024-01-31" (fun _ _ => ⟨"save restored\n", none⟩)
    (fun _ _ => ⟨"other", some "boom"⟩) (Or.inl rfl)

/-- Claim C9: validation rejects only exactly-empty strings — a ckey made
solely of whitespace (with any nonempty date, itself possibly whitespace)
passes validation, and the fields reach the runner untrimmed: the argument
list is exactly `[ckey, date]` (lowercasing leaves whitespace unchanged). -/
theorem restoreSave_whitespace (ckey date : String)
    (hc : ckey ≠ "") (hd : date ≠ "")
    (hwc : ∀ c ∈ ckey.data, c.isWhitespace = true) :
    Monitor.RestoreSaveArgs ckey date = some [ckey, date] ∧
    (∀ conf co, (co conf.restoreSaveScript [ckey, date]).err = none →
      Monitor.RestoreSave conf ckey date co =
        ⟨true, .str (co conf.restoreSaveScript [ckey, date]).output⟩) := by
  have hl : goToLower ckey = ckey := goToLower_of_whitespace ckey hwc
  have hcl : ¬ (goToLower ckey = "" ∨ date = "") := by
    rintro (h | h)
    · rw [hl] at h
      exact hc h
    · exact hd h
  have hcl2 : ¬ (ckey = "" ∨ date = "") := by
    rw [hl] at hcl
    exact hcl
  refine ⟨?_, ?_⟩
  · simp only [Monitor.RestoreSaveArgs, hl, if_neg hcl2]
  · intro conf co h
    simp only [Monitor.RestoreSave, hl, if_neg hcl2, h]

/-- Evaluation witness for `restoreSave_whitespace`: both fields a single
space. -/
theorem restoreSave_whitespace_witness :
    Monitor.RestoreSaveArgs " " " " = some [" ", " "] ∧
    Monitor.RestoreSave conf₀ " " " " (fun _ _ => ⟨"done", none⟩) =
      ⟨true, .str "done"⟩ := by
  refine ⟨(restoreSave_whitespace " " " " (by decide) (by decide) (by decide)).1, ?_⟩
  exact (restoreSave_whitespace " " " " (by decide) (by decide) (by decide)).2
    conf₀ (fun _ _ => ⟨"done", none⟩) rfl

/-- A concrete 20-byte commit hash used by the evaluation witnesses. -/
def hash₃ : GitHash :=
  ⟨[17, 34, 51, 68, 85, 102, 119, 136, 153, 170, 187, 204, 221, 238, 255, 0, 1, 2, 3, 4]⟩

/-- A concrete HEAD commit whose message has a body and a trailing space on
its summary line. -/
def commit₃ : GitCommit :=
  ⟨"Fix bug \n\nLonger body text", ⟨⟨"Mon Jan 02 15:04:05 2006 -0700"⟩⟩, hash₃⟩

/-- A repository world in which every stage of the Commit query succeeds. -/
def git₃ : GitWorld :=
  ⟨fun _ => Except.ok (), Except.ok hash₃, fun _ => Except.ok commit₃⟩

/-- A repository world whose open stage fails. -/
def gitOpenFail : GitWorld :=
  ⟨fun _ => Except.error "repository does not exist", Except.ok hash₃,
   fun _ => Except.ok commit₃⟩

/-- A repository world whose HEAD resolution fails. -/
def gitHeadFail : GitWorld :=
  ⟨fun _ => Except.ok (), Except.error "reference not found",
   fun _ => Except.ok commit₃⟩

/-- A repository world whose commit load fails. -/
def gitCommitFail : GitWorld :=
  ⟨fun _ => Except.ok (), Except.ok hash₃, fun _ => Except.error "object not found"⟩

/-- Claim C3 counterexample: the code trims the whole commit message before
splitting at the first line break, so for the message
"Fix bug \n\nLonger body text" the reported summary is "Fix bug " — not
the claim's "text before the first line break, with surrounding whitespace
trimmed", which would be "Fix bug". -/
theorem commit_summary_counterexample :
    Monitor.Commit conf₀ git₃ =
      ⟨true, .commit ⟨"Fix bug ", "Mon Jan 02 15:04:05 2006 -0700", hash₃.string⟩⟩ ∧
    "Fix bug " ≠ trimSpace (firstLine commit₃.Message) := by
  refine ⟨by decide, by decide⟩

/-- Claim C3 (amended): on a fully successful query, the reported message
is the text before the first line break of the whitespace-trimmed commit
message (the whole message is trimmed first, then split, so whitespace
adjacent to the first line break is kept), and the reported sha is the
commit's full hash rendered as lowercase hexadecimal — two lowercase hex
digits per byte, hence 40 characters for a 20-byte hash. -/
theorem commit_success_envelope (conf : Config) (g : GitWorld)
    (h : GitHash) (c : GitCommit)
    (ho : g.plainOpen conf.gitDir = Except.ok ())
    (hh : g.head = Except.ok h)
    (hc : g.commitObject h = Except.ok c) :
    Monitor.Commit conf g =
      ⟨true, .commit ⟨firstLine (trimSpace c.Message),
                      c.Committer.When.monitorFormat, c.Hash.string⟩⟩ ∧
    (c.Hash.bytes.length = 20 → c.Hash.string.length = 40) ∧
    (∀ ch ∈ c.Hash.string.data,
      ('0' ≤ ch ∧ ch ≤ '9') ∨ ('a' ≤ ch ∧ ch ≤ 'f')) := by
  refine ⟨?_, ?_, GitHash.string_isLowerHex c.Hash⟩
  · simp only [Monitor.Commit, ho, hh, hc]
  · intro h20
    rw [GitHash.string_length, h20]

/-- Evaluation witness for `commit_success_envelope` on the concrete world
`git₃`. -/
theorem commit_success_envelope_witness :
    Monitor.Commit conf₀ git₃ =
      ⟨true, .commit ⟨firstLine (trimSpace commit₃.Message),
                      commit₃.Committer.When.monitorFormat, commit₃.Hash.string⟩⟩ ∧
    (commit₃.Hash.bytes.length = 20 → commit₃.Hash.string.length = 40) ∧
    (∀ ch ∈ commit₃.Hash.string.data,
      ('0' ≤ ch ∧ ch ≤ '9') ∨ ('a' ≤ ch ∧ ch ≤ 'f')) :=
  commit_success_envelope conf₀ git₃ hash₃ commit₃ rfl rfl rfl

/-- Claim C6: each failing stage of the Commit query produces
`success = false` with the message "Failed to <stage> (<error>)" naming
exactly that stage, and once a stage fails the later stages are not
attempted: the result is unchanged under any variation of the later-stage
oracles. -/
theorem commit_failure_stages (conf : Config) (g : GitWorld) (e : String) :
    (g.plainOpen conf.gitDir = Except.error e →
      Monitor.Commit conf g =
        ⟨false, .str ("Failed to open git repo (" ++ e ++ ")")⟩) ∧
    (g.plainOpen conf.gitDir = Except.ok () → g.head = Except.error e →
      Monitor.Commit conf g =
        ⟨false, .str ("Failed to get HEAD ref (" ++ e ++ ")")⟩) ∧
    (∀ h, g.plainOpen conf.gitDir = Except.ok () → g.head = Except.ok h →
      g.commitObject h = Except.error e →
      Monitor.Commit conf g =
        ⟨false, .str ("Failed to get HEAD commit (" ++ e ++ ")")⟩) ∧
    (∀ g2 : GitWorld, g.plainOpen = g2.plainOpen →
      g.plainOpen conf.gitDir = Except.error e →
      Monitor.Commit conf g = Monitor.Commit conf g2) ∧
    (∀ g2 : GitWorld, g.plainOpen = g2.plainOpen → g.head = g2.head →
      g.plainOpen conf.gitDir = Except.ok () → g.head = Except.error e →
      Monitor.Commit conf g = Monitor.Commit conf g2) := by
  refine ⟨?_, ?_, ?_, ?_, ?_⟩
  · intro h1
    simp only [Monitor.Commit, h1]
  · intro h1 h2
    simp only [Monitor.Commit, h1, h2]
  · intro h h1 h2 h3
    simp only [Monitor.Commit, h1, h2, h3]
  · intro g2 hp h1
    have h2 : g2.plainOpen conf.gitDir = Except.error e := by
      rw [← hp]
      exact h1
    simp only [Monitor.Commit, h1, h2]
  · intro g2 hp hh h1 h2
    have h3 : g2.plainOpen conf.gitDir = Except.ok () := by
      rw [← hp]
      exact h1
    have h4 : g2.head = Except.error e := by
      rw [← hh]
      exact h2
    simp only [Monitor.Commit, h1, h2, h3, h4]

/-- Evaluation witness for `commit_failure_stages`: one concrete world per
failing stage, plus insensitivity of the open failure to the later-stage
oracles. -/
theorem commit_failure_stages_witness :
    Monitor.Commit conf₀ gitOpenFail =
      ⟨false, .str "Failed to open git repo (repository does not exist)"⟩ ∧
    Monitor.Commit conf₀ gitHeadFail =
      ⟨false, .str "Failed to get HEAD ref (reference not found)"⟩ ∧
    Monitor.Commit conf₀ gitCommitFail =
      ⟨false, .str "Failed to get HEAD commit (object not found)"⟩ ∧
    Monitor.Commit conf₀ gitOpenFail =
      Monitor.Commit conf₀
        ⟨gitOpenFail.plainOpen, Except.error "other", fun _ => Except.error "other"⟩ :=
  ⟨(commit_failure_stages conf₀ gitOpenFail "repository does not exist").1 rfl,
   (commit_failure_stages conf₀ gitHeadFail "reference not found").2.1 rfl rfl,
   (commit_failure_stages conf₀ gitCommitFail "object not found").2.2.1 hash₃ rfl rfl rfl,
   (commit_failure_stages conf₀ gitOpenFail "repository does not exist").2.2.2.1
     ⟨gitOpenFail.plainOpen, Except.error "other", fun _ => Except.error "other"⟩ rfl rfl⟩

/-- Claim C7: across all six operations, every envelope with
`success = false` carries a string message — never a boolean and never the
structured commit record. -/
theorem failure_message_is_string :
    (∀ conf run, msgStrOnFailure (Monitor.Start conf run)) ∧
    (∀ conf run, msgStrOnFailure (Monitor.Stop conf run)) ∧
    (∀ conf run, msgStrOnFailure (Monitor.Update conf run)) ∧
    (∀ conf ckey date co, msgStrOnFailure (Monitor.RestoreSave conf ckey date co)) ∧
    (∀ conf g, msgStrOnFailure (Monitor.Commit conf g)) ∧
    (∀ conf ins resp, Monitor.IsRunning conf ins = some resp → msgStrOnFailure resp) := by
  refine ⟨?_, ?_, ?_, ?_, ?_, ?_⟩
  · intro conf run
    unfold Monitor.Start msgStrOnFailure
    cases run conf.startScript with
    | none => intro hf; exact Bool.noConfusion hf
    | some e => intro _; exact ⟨_, rfl⟩
  · intro conf run
    unfold Monitor.Stop msgStrOnFailure
    cases run conf.stopScript with
    | none => intro hf; exact Bool.noConfusion hf
    | some e => intro _; exact ⟨_, rfl⟩
  · intro conf run
    unfold Monitor.Update msgStrOnFailure
    cases run conf.updateScript with
    | none => intro hf; exact Bool.noConfusion hf
    | some e => intro _; exact ⟨_, rfl⟩
  · intro conf ckey date co
    unfold msgStrOnFailure
    intro hf
    by_cases hv : goToLower ckey = "" ∨ date = ""
    · exact ⟨"Invalid request", by simp [Monitor.RestoreSave, if_pos hv]⟩
    · cases he : (co conf.restoreSaveScript [goToLower ckey, date]).err with
      | none =>
        exfalso
        have hr : Monitor.RestoreSave conf ckey date co =
            ⟨true, .str (co conf.restoreSaveScript [goToLower ckey, date]).output⟩ := by
          simp [Monitor.RestoreSave, if_neg hv, he]
        rw [hr] at hf
        exact Bool.noConfusion hf
      | some e =>
        refine ⟨"Script failed to run: " ++ e ++ "\n\n" ++
          (co conf.restoreSaveScript [goToLower ckey, date]).output, ?_⟩
        have hr : Monitor.RestoreSave conf ckey date co =
            ⟨false, .str ("Script failed to run: " ++ e ++ "\n\n" ++
              (co conf.restoreSaveScript [goToLower ckey, date]).output)⟩ := by
          simp [Monitor.RestoreSave, if_neg hv, he]
        rw [hr]
  · intro conf g
    unfold msgStrOnFailure
    intro hf
    cases ho : g.plainOpen conf.gitDir with
    | error e =>
      exact ⟨"Failed to open git repo (" ++ e ++ ")", by simp only [Monitor.Commit, ho]⟩
    | ok _ =>
      cases hh : g.head with
      | error e =>
        exact ⟨"Failed to get HEAD ref (" ++ e ++ ")",
          by simp only [Monitor.Commit, ho, hh]⟩
      | ok h =>
        cases hcm : g.commitObject h with
        | error e =>
          exact ⟨"Failed to get HEAD commit (" ++ e ++ ")",
            by simp only [Monitor.Commit, ho, hh, hcm]⟩
        | ok c =>
          exfalso
          have hr : Monitor.Commit conf g =
              ⟨true, .commit ⟨firstLine (trimSpace c.Message),
                              c.Committer.When.monitorFormat, c.Hash.string⟩⟩ := by
            simp only [Monitor.Commit, ho, hh, hcm]
          rw [hr] at hf
          exact Bool.noConfusion hf
  · intro conf ins resp h
    unfold Monitor.IsRunning at h
    cases hins : ins conf.container with
    | error e =>
      rw [hins] at h
      cases Option.some.inj h
      intro hf
      exact Bool.noConfusion hf
    | ok info =>
      obtain ⟨stOpt⟩ := info
      rw [hins] at h
      cases stOpt with
      | none => exact Option.noConfusion h
      | some st =>
        cases Option.some.inj h
        intro hf
        exact Bool.noConfusion hf

/-- Evaluation witness for `failure_message_is_string` at concrete failing
invocations of Start, RestoreSave and Commit. -/
theorem failure_message_is_string_witness :
    (∃ s, (Monitor.Start conf₀ (fun _ => some "exit status 1")).message = Message.str s) ∧
    (∃ s, (Monitor.RestoreSave conf₀ "" ""
      (fun _ _ => ⟨"", none⟩)).message = Message.str s) ∧
    (∃ s, (Monitor.Commit conf₀ gitOpenFail).message = Message.str s) :=
  ⟨failure_message_is_string.1 conf₀ (fun _ => some "exit status 1") rfl,
   failure_message_is_string.2.2.2.1 conf₀ "" "" (fun _ _ => ⟨"", none⟩) (by decide),
   failure_message_is_string.2.2.2.2.1 conf₀ gitOpenFail rfl⟩

/-- Claim C8: Commit and IsRunning are deterministic functions of the
backing state and the configuration — two invocations against equal
configurations and equal provider states return identical envelopes. -/
theorem read_ops_deterministic (conf conf2 : Config) (g g2 : GitWorld)
    (ins ins2 : String → Except String ContainerJSON)
    (hconf : conf = conf2) (hg : g = g2) (hins : ins = ins2) :
    Monitor.Commit conf g = Monitor.Commit conf2 g2 ∧
    Monitor.IsRunning conf ins = Monitor.IsRunning conf2 ins2 := by
  subst hconf
  subst hg
  subst hins
  exact ⟨rfl, rfl⟩

/-- Evaluation witness for `read_ops_deterministic` at a concrete repository
world and inspection oracle. -/
theorem read_ops_deterministic_witness :
    Monitor.Commit conf₀ git₃ = Monitor.Commit conf₀ git₃ ∧
    Monitor.IsRunning conf₀ (fun _ => Except.error "runtime unreachable") =
      Monitor.IsRunning conf₀ (fun _ => Except.error "runtime unreachable") :=
  read_ops_deterministic conf₀ conf₀ git₃ git₃
    (fun _ => Except.error "runtime unreachable")
    (fun _ => Except.error "runtime unreachable") rfl rfl rfl

example : goToLower "Alice" = "alice" := by decide

example : firstLine (trimSpace "Fix bug \n\nLonger body text") = "Fix bug " := by decide

example : trimSpace (firstLine "Fix bug \n\nLonger body text") = "Fix bug" := by decide

example : GitHash.string ⟨[0, 255, 16]⟩ = "00ff10" := by decide
